import Mathlib

/-!
Shallow embedding of `src/indexer/indexer.c` — the per-document indexing
pipeline of the search engine.  The four backing stores (term index, math
index, offset key-value store, URL/text blob channels) are modelled as
append-only logs inside an explicit state record; external collaborators
(the TeX parser, the lexer, the text segmenter, the case folder, the
compressor, the key-value put success/failure behaviour, and the term
index finalization result) are modelled as a record of pure functions
passed to each operation.  The C functions `index_blob`, `save_offset`,
`index_tex`, `index_term`, `indexer_handle_slice`, `index_maintain`,
`index_text_field` and `indexer_index_json` are translated one-for-one.
-/

namespace Indexer

/-- Key of an offset-map entry: `offsetmap_from_t` (`docID`, `pos`). -/
structure OffsetFrom where
  docID : Nat
  pos : Nat
deriving DecidableEq

/-- Value of an offset-map entry: `offsetmap_to_t` (`offset`, `n_bytes`). -/
structure OffsetTo where
  offset : Nat
  n_bytes : Nat
deriving DecidableEq

/-- Structural subpaths extracted from a parsed TeX expression.  Their
internal structure is out of scope; a list of opaque descriptors suffices. -/
abbrev Subpaths := List Nat

/-- `struct tex_parse_ret`: the TeX parser returns either success with an
owned subpaths collection, or failure with a diagnostic message. -/
inductive TexParseRet where
  | succ (subpaths : Subpaths)
  | fail (msg : String)
deriving DecidableEq

/-- One event in the term-index store lifecycle (`term_index_doc_begin`,
`term_index_doc_add`, `term_index_doc_end`). -/
inductive TermEvent where
  | docBegin
  | docAdd (term : String)
  | docEnd (docID : Nat)
deriving DecidableEq

/-- One entry written to the math index via `math_index_add_tex`. -/
structure MathEntry where
  docID : Nat
  pos : Nat
  subpaths : Subpaths
deriving DecidableEq

/-- `enum lex_slice_type`: math / plain text / English text. -/
inductive LexSliceType where
  | math
  | text
  | engText
deriving DecidableEq

/-- `struct lex_slice`: a classified substring with its byte offset. -/
structure LexSlice where
  type : LexSliceType
  mb_str : String
  offset : Nat
deriving DecidableEq

/-- `struct text_seg`: a segment produced by `text_segment`, carrying its
own (slice-relative) offset and byte length. -/
structure TextSeg where
  str : String
  offset : Nat
  n_bytes : Nat
deriving DecidableEq

/-- The corpus envelope after the external JSON stage: its total byte
size and the (possibly absent / unextractable) `url` and `text` fields. -/
structure Envelope where
  size : Nat
  url : Option String
  text : Option String
deriving DecidableEq

/-- The process-wide mutable state of `indexer.c`: the two counters
(`prev_docID`, `cur_position`) and the observable contents of the four
backing stores, as append-only logs.  `liveSubpaths` counts currently
allocated (not yet released) subpaths collections; `errLog` records
diagnostic lines printed on recoverable errors; `flushCount` counts
offset-store flushes performed by maintenance. -/
structure IndexerState where
  prev_docID : Nat
  cur_position : Nat
  termLog : List TermEvent
  mathLog : List MathEntry
  offsetLog : List (OffsetFrom × OffsetTo)
  urlLog : List (Nat × String)
  txtLog : List (Nat × String)
  liveSubpaths : Nat
  errLog : List String
  flushCount : Nat
deriving DecidableEq

/-- The two blob channels (`blob_index_url`, `blob_index_txt`). -/
inductive BlobChannel where
  | url
  | txt
deriving DecidableEq

/-- External collaborators, injected as pure functions:
the TeX parser, math-tag stripper, ASCII case folder, text segmenter,
gzip compressor, key-value put success behaviour, the docID returned by
term-index finalization (as a function of the term-index log), whether a
maintenance cycle runs, the lexer output for a text field, and the
maximum corpus file size `MAX_CORPUS_FILE_SZ`. -/
structure Exts where
  tex_parse : String → TexParseRet
  strip_math_tag : String → String
  eng_to_lower_case : String → String
  text_segment : String → List TextSeg
  gz_compress : String → String
  keyval_put_ok : OffsetFrom → OffsetTo → Bool
  term_index_doc_end : List TermEvent → Nat
  term_index_maintain_runs : List TermEvent → Bool
  lex : String → List LexSlice
  max_corpus_file_sz : Nat

/-- `index_blob`: write a payload to a blob channel, keyed by
`prev_docID + 1`; compress via the gzip codec when `compress` is set. -/
def index_blob (E : Exts) (bi : BlobChannel) (str : String) (compress : Bool)
    (s : IndexerState) : IndexerState :=
  let data := if compress then E.gz_compress str else str
  match bi with
  | .url => { s with urlLog := s.urlLog ++ [(s.prev_docID + 1, data)] }
  | .txt => { s with txtLog := s.txtLog ++ [(s.prev_docID + 1, data)] }

/-- `save_offset`: put the entry `(prev_docID + 1, cur_position) ↦
(offset, n_bytes)` into the offset store.  Returns `true` on put error
(matching the C convention), in which case no entry is stored and a
diagnostic is printed. -/
def save_offset (E : Exts) (offset n_bytes : Nat) (s : IndexerState) :
    Bool × IndexerState :=
  let fromKey : OffsetFrom := ⟨s.prev_docID + 1, s.cur_position⟩
  let toVal : OffsetTo := ⟨offset, n_bytes⟩
  if E.keyval_put_ok fromKey toVal then
    (false, { s with offsetLog := s.offsetLog ++ [(fromKey, toVal)] })
  else
    (true, { s with errLog := s.errLog ++ ["put error"] })

/-- `index_tex`: parse the stripped TeX body; on success add the subpaths
to the math index under `(prev_docID + 1, cur_position)` and release
them; on failure log the input and message; in all cases save the offset
entry and then increment the position counter. -/
def index_tex (E : Exts) (tex : String) (offset n_bytes : Nat)
    (s : IndexerState) : IndexerState :=
  let s1 :=
    match E.tex_parse tex with
    | .succ subpaths =>
        let sa := { s with liveSubpaths := s.liveSubpaths + 1 }
        let sb := { sa with mathLog :=
          sa.mathLog ++ [(⟨sa.prev_docID + 1, sa.cur_position, subpaths⟩ : MathEntry)] }
        { sb with liveSubpaths := sb.liveSubpaths - 1 }
    | .fail msg =>
        { s with errLog := s.errLog ++ ["parsing TeX (" ++ tex ++ ") error: " ++ msg] }
  let s2 := (save_offset E offset n_bytes s1).2
  { s2 with cur_position := s2.cur_position + 1 }

/-- `index_term`: append the term to the inverted index, save the offset
entry, then increment the position counter. -/
def index_term (E : Exts) (term : String) (offset n_bytes : Nat)
    (s : IndexerState) : IndexerState :=
  let s1 := { s with termLog := s.termLog ++ [TermEvent.docAdd term] }
  let s2 := (save_offset E offset n_bytes s1).2
  { s2 with cur_position := s2.cur_position + 1 }

/-- `indexer_handle_slice`: dispatch on the slice type.  Math: register
the sentinel term, strip the math tag, hand the stripped body (with the
slice offset and original byte length) to `index_tex`.  Plain text:
lower-case, segment, and index each segment with its offset adjusted by
the slice base offset (the `_index_term` list callback).  English text:
lower-case and index the whole slice. -/
def indexer_handle_slice (E : Exts) (slice : LexSlice)
    (s : IndexerState) : IndexerState :=
  let str_sz := slice.mb_str.utf8ByteSize
  match slice.type with
  | .math =>
      let s1 := { s with termLog := s.termLog ++ [TermEvent.docAdd ("math_exp")] }
      index_tex E (E.strip_math_tag slice.mb_str) slice.offset str_sz s1
  | .text =>
      let lowered := E.eng_to_lower_case slice.mb_str
      (E.text_segment lowered).foldl
        (fun st seg => index_term E seg.str (seg.offset + slice.offset) seg.n_bytes st) s
  | .engText =>
      index_term E (E.eng_to_lower_case slice.mb_str) slice.offset str_sz s

/-- `index_maintain`: run a term-index maintenance cycle; when it ran,
flush the offset store (the progress indicator and the settling sleep
are I/O with no effect on the modelled stores). -/
def index_maintain (E : Exts) (s : IndexerState) : IndexerState :=
  if E.term_index_maintain_runs s.termLog then
    { s with flushCount := s.flushCount + 1 }
  else
    s

/-- The state of `index_text_field` just before `term_index_doc_end`:
document begun in the term index, all lexer slices dispatched, and the
text blob written compressed. -/
def index_text_field_pre (E : Exts) (txt : String)
    (s : IndexerState) : IndexerState :=
  let s1 := { s with termLog := s.termLog ++ [TermEvent.docBegin] }
  let s2 := (E.lex txt).foldl (fun st sl => indexer_handle_slice E sl st) s1
  index_blob E .txt txt true s2

/-- `index_text_field`: begin the document, run the lexer (which calls
back into `indexer_handle_slice` for each slice), write the compressed
text blob, end the document obtaining the authoritative docID, assert it
equals `prev_docID + 1` (`none` models the fatal `assert` abort), then
update `prev_docID` and reset `cur_position` to 0. -/
def index_text_field (E : Exts) (txt : String)
    (s : IndexerState) : Option IndexerState :=
  let s3 := index_text_field_pre E txt s
  let docID := E.term_index_doc_end s3.termLog
  let s4 := { s3 with termLog := s3.termLog ++ [TermEvent.docEnd docID] }
  if docID = s4.prev_docID + 1 then
    some { s4 with prev_docID := docID, cur_position := 0 }
  else
    none

/-- `indexer_index_json`: reject an envelope that fills the whole
`MAX_CORPUS_FILE_SZ` buffer, or whose `url` or `text` field cannot be
extracted (each rejection prints a diagnostic and returns); otherwise
write the URL blob uncompressed, index the text field, and run the
maintenance check.  `none` models the fatal abort inside
`index_text_field`. -/
def indexer_index_json (E : Exts) (env : Envelope)
    (s : IndexerState) : Option IndexerState :=
  if E.max_corpus_file_sz ≤ env.size then
    some { s with errLog := s.errLog ++ ["corpus file too large!"] }
  else
    match env.url with
    | none => some { s with errLog := s.errLog ++ ["JSON node not found."] }
    | some url_field =>
      match env.text with
      | none => some { s with errLog := s.errLog ++ ["JSON node not found."] }
      | some txt_field =>
        let s1 := index_blob E .url url_field false s
        match index_text_field E txt_field s1 with
        | none => none
        | some s2 => some (index_maintain E s2)

/-- Process a list of documents through `index_text_field`, collecting
the docID assigned to each successfully finalized document (which equals
`prev_docID` right after the document completes).  `none` when any
document aborts fatally. -/
def index_docs (E : Exts) : List String → IndexerState →
    Option (IndexerState × List Nat)
  | [], s => some (s, [])
  | txt :: rest, s =>
      match index_text_field E txt s with
      | none => none
      | some s1 =>
        match index_docs E rest s1 with
        | none => none
        | some (s2, ids) => some (s2, s1.prev_docID :: ids)

/-- A concrete segmenter for test runs: the empty string yields no
segment, any other string is one whole segment at offset 0. -/
def exampleSegs (t : String) : List TextSeg :=
  if t = "" then [] else [⟨t, 0, t.utf8ByteSize⟩]

/-- Recognize a `docEnd` event. -/
def isDocEnd : TermEvent → Bool
  | .docEnd _ => true
  | _ => false

/-- A concrete, well-behaved set of external collaborators, used to
evaluate the pipeline on closed inputs.  Its `term_index_doc_end`
behaves like a store that assigns consecutive docIDs starting at 1. -/
def E0 : Exts where
  tex_parse := fun t => if t = "x^2" then .succ [1, 2] else .fail ("malformed")
  strip_math_tag := fun t => if t = "<math>x^2</math>" then "x^2" else t
  eng_to_lower_case := fun t => t
  text_segment := exampleSegs
  gz_compress := fun t => "gz:" ++ t
  keyval_put_ok := fun _ _ => true
  term_index_doc_end := fun log => log.countP isDocEnd + 1
  term_index_maintain_runs := fun _ => false
  lex := fun t => if t = "" then [] else [⟨.engText, t, 0⟩]
  max_corpus_file_sz := 100

/-- Like `E0`, but every offset-store put fails. -/
def EputFail : Exts := { E0 with keyval_put_ok := fun _ _ => false }

/-- Like `E0`, but finalization returns a deliberately wrong docID —
the test double of the fatal-invariant scenario. -/
def Ewrong : Exts := { E0 with term_index_doc_end := fun _ => 7 }

/-- The initial process state: counters at 0, all stores empty. -/
def s0 : IndexerState := ⟨0, 0, [], [], [], [], [], 0, [], 0⟩

/-- The state reached from `s0` after `E0` indexes the text field "ab"
(one English-text slice): docID 1 assigned, stores filled accordingly. -/
def sAB : IndexerState :=
  ⟨1, 0, [TermEvent.docBegin, TermEvent.docAdd ("ab"), TermEvent.docEnd 1], [],
   [(⟨1, 0⟩, ⟨0, 2⟩)], [], [(1, "gz:ab")], 0, [], 0⟩

/-- The state reached from `s0` after `E0` processes the envelope with
url "u" and empty text: docID 1, URL blob and compressed empty text blob
both keyed 1. -/
def sC6 : IndexerState :=
  ⟨1, 0, [TermEvent.docBegin, TermEvent.docEnd 1], [], [],
   [(1, "u")], [(1, "gz:")], 0, [], 0⟩

/-- The state reached from `s0` after `E0` indexes the two one-slice
documents "a" and "b": docIDs 1 and 2 assigned in order. -/
def sC7 : IndexerState :=
  ⟨2, 0,
   [TermEvent.docBegin, TermEvent.docAdd ("a"), TermEvent.docEnd 1,
    TermEvent.docBegin, TermEvent.docAdd ("b"), TermEvent.docEnd 2], [],
   [(⟨1, 0⟩, ⟨0, 1⟩), (⟨2, 0⟩, ⟨0, 1⟩)], [],
   [(1, "gz:a"), (2, "gz:b")], 0, [], 0⟩

/-- Frame relation of the slice-handling code: `prev_docID`, the blob
channels and the live-subpaths count are untouched, the position counter
does not decrease, and the offset and math logs only grow by entries
keyed by `prev_docID + 1`. -/
def SliceFrame (s s' : IndexerState) : Prop :=
  s'.prev_docID = s.prev_docID ∧
  s'.urlLog = s.urlLog ∧
  s'.txtLog = s.txtLog ∧
  s'.liveSubpaths = s.liveSubpaths ∧
  s.cur_position ≤ s'.cur_position ∧
  (∃ O, s'.offsetLog = s.offsetLog ++ O ∧ ∀ p ∈ O, p.1.docID = s.prev_docID + 1) ∧
  (∃ M, s'.mathLog = s.mathLog ++ M ∧ ∀ e ∈ M, e.docID = s.prev_docID + 1)

theorem index_blob_url_eq (E : Exts) (str : String) (c : Bool) (s : IndexerState) :
    index_blob E .url str c s =
      { s with urlLog := s.urlLog ++
          [(s.prev_docID + 1, if c then E.gz_compress str else str)] } := by
  cases c <;> simp [index_blob]

theorem index_blob_txt_eq (E : Exts) (str : String) (c : Bool) (s : IndexerState) :
    index_blob E .txt str c s =
      { s with txtLog := s.txtLog ++
          [(s.prev_docID + 1, if c then E.gz_compress str else str)] } := by
  cases c <;> simp [index_blob]

/-- `index_term` unfolded into its two outcomes (offset put success or
failure); in both, the term is appended and the position incremented. -/
theorem index_term_eq (E : Exts) (term : String) (off n : Nat) (s : IndexerState) :
    index_term E term off n s =
      if E.keyval_put_ok ⟨s.prev_docID + 1, s.cur_position⟩ ⟨off, n⟩ then
        { s with termLog := s.termLog ++ [TermEvent.docAdd term],
                 offsetLog := s.offsetLog ++
                   [(⟨s.prev_docID + 1, s.cur_position⟩, ⟨off, n⟩)],
                 cur_position := s.cur_position + 1 }
      else
        { s with termLog := s.termLog ++ [TermEvent.docAdd term],
                 errLog := s.errLog ++ ["put error"],
                 cur_position := s.cur_position + 1 } := by
  by_cases hc : E.keyval_put_ok ⟨s.prev_docID + 1, s.cur_position⟩ ⟨off, n⟩ = true
  · simp [index_term, save_offset, hc]
  · simp [index_term, save_offset, hc]

/-- `index_tex` on a successful parse: math entry added under
`(prev_docID + 1, cur_position)`, offset saved, position incremented,
subpaths allocation balanced. -/
theorem index_tex_succ_eq (E : Exts) (tex : String) (off n : Nat)
    (s : IndexerState) (sp : Subpaths) (hp : E.tex_parse tex = .succ sp) :
    index_tex E tex off n s =
      if E.keyval_put_ok ⟨s.prev_docID + 1, s.cur_position⟩ ⟨off, n⟩ then
        { s with mathLog := s.mathLog ++
                   [(⟨s.prev_docID + 1, s.cur_position, sp⟩ : MathEntry)],
                 offsetLog := s.offsetLog ++
                   [(⟨s.prev_docID + 1, s.cur_position⟩, ⟨off, n⟩)],
                 cur_position := s.cur_position + 1 }
      else
        { s with mathLog := s.mathLog ++
                   [(⟨s.prev_docID + 1, s.cur_position, sp⟩ : MathEntry)],
                 errLog := s.errLog ++ ["put error"],
                 cur_position := s.cur_position + 1 } := by
  by_cases hc : E.keyval_put_ok ⟨s.prev_docID + 1, s.cur_position⟩ ⟨off, n⟩ = true
  · simp [index_tex, save_offset, hp, hc]
  · simp [index_tex, save_offset, hp, hc]

/-- `index_tex` on a failed parse: the failing input and the parser
message are logged, no math entry is added, the offset is still saved
and the position still incremented. -/
theorem index_tex_fail_eq (E : Exts) (tex : String) (off n : Nat)
    (s : IndexerState) (msg : String) (hp : E.tex_parse tex = .fail msg) :
    index_tex E tex off n s =
      if E.keyval_put_ok ⟨s.prev_docID + 1, s.cur_position⟩ ⟨off, n⟩ then
        { s with errLog := s.errLog ++
                   ["parsing TeX (" ++ tex ++ ") error: " ++ msg],
                 offsetLog := s.offsetLog ++
                   [(⟨s.prev_docID + 1, s.cur_position⟩, ⟨off, n⟩)],
                 cur_position := s.cur_position + 1 }
      else
        { s with errLog := (s.errLog ++
                   ["parsing TeX (" ++ tex ++ ") error: " ++ msg]) ++ ["put error"],
                 cur_position := s.cur_position + 1 } := by
  by_cases hc : E.keyval_put_ok ⟨s.prev_docID + 1, s.cur_position⟩ ⟨off, n⟩ = true
  · simp [index_tex, save_offset, hp, hc]
  · simp [index_tex, save_offset, hp, hc]

theorem handle_slice_math_eq (E : Exts) (sl : LexSlice) (s : IndexerState)
    (ht : sl.type = .math) :
    indexer_handle_slice E sl s =
      index_tex E (E.strip_math_tag sl.mb_str) sl.offset sl.mb_str.utf8ByteSize
        { s with termLog := s.termLog ++ [TermEvent.docAdd ("math_exp")] } := by
  simp [indexer_handle_slice, ht]

theorem handle_slice_text_eq (E : Exts) (sl : LexSlice) (s : IndexerState)
    (ht : sl.type = .text) :
    indexer_handle_slice E sl s =
      (E.text_segment (E.eng_to_lower_case sl.mb_str)).foldl
        (fun st seg => index_term E seg.str (seg.offset + sl.offset) seg.n_bytes st) s := by
  simp [indexer_handle_slice, ht]

theorem handle_slice_eng_eq (E : Exts) (sl : LexSlice) (s : IndexerState)
    (ht : sl.type = .engText) :
    indexer_handle_slice E sl s =
      index_term E (E.eng_to_lower_case sl.mb_str) sl.offset sl.mb_str.utf8ByteSize s := by
  simp [indexer_handle_slice, ht]

theorem sliceFrame_refl (s : IndexerState) : SliceFrame s s :=
  ⟨rfl, rfl, rfl, rfl, Nat.le_refl _, ⟨[], by simp⟩, ⟨[], by simp⟩⟩

theorem sliceFrame_trans {s t u : IndexerState}
    (h1 : SliceFrame s t) (h2 : SliceFrame t u) : SliceFrame s u := by
  obtain ⟨hp1, hu1, ht1, hl1, hc1, ⟨O1, hO1, hk1⟩, ⟨M1, hM1, hm1⟩⟩ := h1
  obtain ⟨hp2, hu2, ht2, hl2, hc2, ⟨O2, hO2, hk2⟩, ⟨M2, hM2, hm2⟩⟩ := h2
  refine ⟨hp2.trans hp1, hu2.trans hu1, ht2.trans ht1, hl2.trans hl1,
    Nat.le_trans hc1 hc2,
    ⟨O1 ++ O2, by rw [hO2, hO1, List.append_assoc], ?_⟩,
    ⟨M1 ++ M2, by rw [hM2, hM1, List.append_assoc], ?_⟩⟩
  · intro p hp
    rcases List.mem_append.1 hp with h | h
    · exact hk1 p h
    · rw [hp1] at hk2
      exact hk2 p h
  · intro e he
    rcases List.mem_append.1 he with h | h
    · exact hm1 e h
    · rw [hp1] at hm2
      exact hm2 e h

theorem index_term_frame (E : Exts) (term : String) (off n : Nat)
    (s : IndexerState) : SliceFrame s (index_term E term off n s) := by
  rw [index_term_eq]
  split
  · refine ⟨rfl, rfl, rfl, rfl, Nat.le_succ _,
      ⟨[(⟨s.prev_docID + 1, s.cur_position⟩, ⟨off, n⟩)], rfl, ?_⟩, ⟨[], by simp⟩⟩
    intro p hp
    rw [List.mem_singleton] at hp
    rw [hp]
  · exact ⟨rfl, rfl, rfl, rfl, Nat.le_succ _, ⟨[], by simp⟩, ⟨[], by simp⟩⟩

theorem index_tex_frame (E : Exts) (tex : String) (off n : Nat)
    (s : IndexerState) : SliceFrame s (index_tex E tex off n s) := by
  cases hp : E.tex_parse tex with
  | succ sp =>
      rw [index_tex_succ_eq E tex off n s sp hp]
      split
      · refine ⟨rfl, rfl, rfl, rfl, Nat.le_succ _,
          ⟨[(⟨s.prev_docID + 1, s.cur_position⟩, ⟨off, n⟩)], rfl, ?_⟩,
          ⟨[⟨s.prev_docID + 1, s.cur_position, sp⟩], rfl, ?_⟩⟩
        · intro p hyp
          rw [List.mem_singleton] at hyp
          rw [hyp]
        · intro e he
          rw [List.mem_singleton] at he
          rw [he]
      · refine ⟨rfl, rfl, rfl, rfl, Nat.le_succ _, ⟨[], by simp⟩,
          ⟨[⟨s.prev_docID + 1, s.cur_position, sp⟩], rfl, ?_⟩⟩
        intro e he
        rw [List.mem_singleton] at he
        rw [he]
  | fail msg =>
      rw [index_tex_fail_eq E tex off n s msg hp]
      split
      · refine ⟨rfl, rfl, rfl, rfl, Nat.le_succ _,
          ⟨[(⟨s.prev_docID + 1, s.cur_position⟩, ⟨off, n⟩)], rfl, ?_⟩, ⟨[], by simp⟩⟩
        intro p hyp
        rw [List.mem_singleton] at hyp
        rw [hyp]
      · exact ⟨rfl, rfl, rfl, rfl, Nat.le_succ _, ⟨[], by simp⟩, ⟨[], by simp⟩⟩

theorem foldl_index_term_frame (E : Exts) (base : Nat) (segs : List TextSeg) :
    ∀ s : IndexerState, SliceFrame s (segs.foldl
      (fun st seg => index_term E seg.str (seg.offset + base) seg.n_bytes st) s) := by
  induction segs with
  | nil => intro s; exact sliceFrame_refl s
  | cons seg rest ih =>
      intro s
      rw [List.foldl_cons]
      exact sliceFrame_trans
        (index_term_frame E seg.str (seg.offset + base) seg.n_bytes s) (ih _)

theorem handle_slice_frame (E : Exts) (sl : LexSlice) (s : IndexerState) :
    SliceFrame s (indexer_handle_slice E sl s) := by
  cases ht : sl.type with
  | math =>
      rw [handle_slice_math_eq E sl s ht]
      exact sliceFrame_trans
        (⟨rfl, rfl, rfl, rfl, Nat.le_refl _, ⟨[], by simp⟩, ⟨[], by simp⟩⟩ :
          SliceFrame s { s with termLog := s.termLog ++ [TermEvent.docAdd ("math_exp")] })
        (index_tex_frame E (E.strip_math_tag sl.mb_str) sl.offset sl.mb_str.utf8ByteSize _)
  | text =>
      rw [handle_slice_text_eq E sl s ht]
      exact foldl_index_term_frame E sl.offset _ s
  | engText =>
      rw [handle_slice_eng_eq E sl s ht]
      exact index_term_frame E _ _ _ s

theorem foldl_handle_frame (E : Exts) (slices : List LexSlice) :
    ∀ s : IndexerState, SliceFrame s (slices.foldl
      (fun st sl => indexer_handle_slice E sl st) s) := by
  induction slices with
  | nil => intro s; exact sliceFrame_refl s
  | cons sl rest ih =>
      intro s
      rw [List.foldl_cons]
      exact sliceFrame_trans (handle_slice_frame E sl s) (ih _)

theorem index_term_balance (E : Exts) (term : String) (off n : Nat)
    (s : IndexerState) (hOK : ∀ f t, E.keyval_put_ok f t = true) :
    (index_term E term off n s).offsetLog.length = s.offsetLog.length + 1 ∧
    (index_term E term off n s).cur_position = s.cur_position + 1 := by
  rw [index_term_eq, if_pos (hOK _ _)]
  simp

theorem index_tex_balance (E : Exts) (tex : String) (off n : Nat)
    (s : IndexerState) (hOK : ∀ f t, E.keyval_put_ok f t = true) :
    (index_tex E tex off n s).offsetLog.length = s.offsetLog.length + 1 ∧
    (index_tex E tex off n s).cur_position = s.cur_position + 1 := by
  cases hp : E.tex_parse tex with
  | succ sp =>
      rw [index_tex_succ_eq E tex off n s sp hp, if_pos (hOK _ _)]
      simp
  | fail msg =>
      rw [index_tex_fail_eq E tex off n s msg hp, if_pos (hOK _ _)]
      simp

theorem foldl_index_term_balance (E : Exts) (base : Nat)
    (hOK : ∀ f t, E.keyval_put_ok f t = true) (segs : List TextSeg) :
    ∀ s : IndexerState,
      (segs.foldl (fun st seg =>
        index_term E seg.str (seg.offset + base) seg.n_bytes st) s).offsetLog.length
          + s.cur_position
        = s.offsetLog.length + (segs.foldl (fun st seg =>
            index_term E seg.str (seg.offset + base) seg.n_bytes st) s).cur_position := by
  induction segs with
  | nil => intro s; rfl
  | cons seg rest ih =>
      intro s
      rw [List.foldl_cons]
      have hb := index_term_balance E seg.str (seg.offset + base) seg.n_bytes s hOK
      have := ih (index_term E seg.str (seg.offset + base) seg.n_bytes s)
      omega

theorem handle_slice_balance (E : Exts) (sl : LexSlice) (s : IndexerState)
    (hOK : ∀ f t, E.keyval_put_ok f t = true) :
    (indexer_handle_slice E sl s).offsetLog.length + s.cur_position
      = s.offsetLog.length + (indexer_handle_slice E sl s).cur_position := by
  cases ht : sl.type with
  | math =>
      rw [handle_slice_math_eq E sl s ht]
      have h2 := index_tex_balance E (E.strip_math_tag sl.mb_str) sl.offset
        sl.mb_str.utf8ByteSize
        { s with termLog := s.termLog ++ [TermEvent.docAdd ("math_exp")] } hOK
      dsimp only at h2
      omega
  | text =>
      rw [handle_slice_text_eq E sl s ht]
      exact foldl_index_term_balance E sl.offset hOK _ s
  | engText =>
      rw [handle_slice_eng_eq E sl s ht]
      have := index_term_balance E (E.eng_to_lower_case sl.mb_str) sl.offset
        sl.mb_str.utf8ByteSize s hOK
      omega

theorem foldl_handle_balance (E : Exts)
    (hOK : ∀ f t, E.keyval_put_ok f t = true) (slices : List LexSlice) :
    ∀ s : IndexerState,
      (slices.foldl (fun st sl =>
        indexer_handle_slice E sl st) s).offsetLog.length + s.cur_position
        = s.offsetLog.length + (slices.foldl (fun st sl =>
            indexer_handle_slice E sl st) s).cur_position := by
  induction slices with
  | nil => intro s; rfl
  | cons sl rest ih =>
      intro s
      rw [List.foldl_cons]
      have hb := handle_slice_balance E sl s hOK
      have := ih (indexer_handle_slice E sl s)
      omega

theorem index_text_field_pre_spec (E : Exts) (txt : String) (s : IndexerState) :
    (index_text_field_pre E txt s).prev_docID = s.prev_docID ∧
    (index_text_field_pre E txt s).urlLog = s.urlLog ∧
    (index_text_field_pre E txt s).txtLog
      = s.txtLog ++ [(s.prev_docID + 1, E.gz_compress txt)] ∧
    (∃ O, (index_text_field_pre E txt s).offsetLog = s.offsetLog ++ O ∧
        ∀ p ∈ O, p.1.docID = s.prev_docID + 1) ∧
    (∃ M, (index_text_field_pre E txt s).mathLog = s.mathLog ++ M ∧
        ∀ e ∈ M, e.docID = s.prev_docID + 1) := by
  obtain ⟨hp, hu, ht, _, _, ⟨O, hO, hk⟩, ⟨M, hM, hm⟩⟩ :=
    foldl_handle_frame E (E.lex txt)
      { s with termLog := s.termLog ++ [TermEvent.docBegin] }
  unfold index_text_field_pre
  rw [index_blob_txt_eq]
  refine ⟨hp, hu, ?_, ⟨O, hO, hk⟩, ⟨M, hM, hm⟩⟩
  rw [ht, hp]
  simp

/-- A successful run of `index_text_field` advances `prev_docID` by
exactly one, resets the position counter, leaves the URL channel alone,
writes one compressed text blob keyed `prev_docID + 1`, and appends only
offset and math entries keyed `prev_docID + 1`. -/
theorem index_text_field_some_spec (E : Exts) (txt : String) (s s2 : IndexerState)
    (h : index_text_field E txt s = some s2) :
    s2.prev_docID = s.prev_docID + 1 ∧ s2.cur_position = 0 ∧
    s2.urlLog = s.urlLog ∧
    s2.txtLog = s.txtLog ++ [(s.prev_docID + 1, E.gz_compress txt)] ∧
    (∃ O, s2.offsetLog = s.offsetLog ++ O ∧ ∀ p ∈ O, p.1.docID = s.prev_docID + 1) ∧
    (∃ M, s2.mathLog = s.mathLog ++ M ∧ ∀ e ∈ M, e.docID = s.prev_docID + 1) := by
  obtain ⟨hp, hu, ht, ⟨O, hOl, hOk⟩, ⟨M, hMl, hMk⟩⟩ := index_text_field_pre_spec E txt s
  simp only [index_text_field] at h
  split at h
  · rename_i hc
    rw [Option.some_inj] at h
    subst h
    rw [hp] at hc
    exact ⟨hc, rfl, hu, ht, ⟨O, hOl, hOk⟩, ⟨M, hMl, hMk⟩⟩
  · exact absurd h (by simp)

/-- When finalization returns anything other than `prev_docID + 1`, the
assert fires and the pipeline aborts fatally. -/
theorem index_text_field_none_spec (E : Exts) (txt : String) (s : IndexerState)
    (h : E.term_index_doc_end (index_text_field_pre E txt s).termLog
        ≠ s.prev_docID + 1) :
    index_text_field E txt s = none := by
  have hp := (index_text_field_pre_spec E txt s).1
  simp only [index_text_field]
  split
  · rename_i hc
    rw [hp] at hc
    exact absurd hc h
  · rfl

/-- A successful run of `index_text_field` means the finalization docID
matched the prediction. -/
theorem index_text_field_some_docEnd (E : Exts) (txt : String)
    (s s2 : IndexerState) (h : index_text_field E txt s = some s2) :
    E.term_index_doc_end (index_text_field_pre E txt s).termLog
      = s.prev_docID + 1 := by
  by_contra hc
  rw [index_text_field_none_spec E txt s hc] at h
  exact Option.noConfusion h

/-- `index_maintain` only ever touches the flush counter. -/
theorem index_maintain_frame (E : Exts) (s : IndexerState) :
    (index_maintain E s).prev_docID = s.prev_docID ∧
    (index_maintain E s).cur_position = s.cur_position ∧
    (index_maintain E s).termLog = s.termLog ∧
    (index_maintain E s).mathLog = s.mathLog ∧
    (index_maintain E s).offsetLog = s.offsetLog ∧
    (index_maintain E s).urlLog = s.urlLog ∧
    (index_maintain E s).txtLog = s.txtLog ∧
    (index_maintain E s).liveSubpaths = s.liveSubpaths := by
  unfold index_maintain
  split <;> exact ⟨rfl, rfl, rfl, rfl, rfl, rfl, rfl, rfl⟩

/-- Claim C1: for every successfully processed document the docID
returned by term-index finalization equals the locally tracked
last-completed docID plus 1; a mismatch is a fatal abort (`none`), not a
recoverable error; on a match the pipeline sets the last-completed docID
to the returned value and resets the position counter to 0, so every new
document begins with position 0. -/
theorem C1_docID_finalization (E : Exts) (txt : String) (s : IndexerState) :
    (∀ s2, index_text_field E txt s = some s2 →
        E.term_index_doc_end (index_text_field_pre E txt s).termLog
            = s.prev_docID + 1 ∧
        s2.prev_docID = s.prev_docID + 1 ∧ s2.cur_position = 0) ∧
    (E.term_index_doc_end (index_text_field_pre E txt s).termLog
        ≠ s.prev_docID + 1 →
      index_text_field E txt s = none) := by
  constructor
  · intro s2 h
    obtain ⟨h1, h2, _⟩ := index_text_field_some_spec E txt s s2 h
    exact ⟨index_text_field_some_docEnd E txt s s2 h, h1, h2⟩
  · exact index_text_field_none_spec E txt s

/-- Witness for C1: under `E0` the document "ab" finalizes at docID 1
with the counters updated; under the wrong-docID double `Ewrong` the
pipeline aborts fatally. -/
theorem C1_docID_finalization_w :
    (E0.term_index_doc_end (index_text_field_pre E0 ("ab") s0).termLog
        = s0.prev_docID + 1 ∧
     sAB.prev_docID = s0.prev_docID + 1 ∧ sAB.cur_position = 0) ∧
    index_text_field Ewrong ("ab") s0 = none :=
  ⟨(C1_docID_finalization E0 ("ab") s0).1 sAB (by decide),
   (C1_docID_finalization Ewrong ("ab") s0).2 (by decide)⟩

/-- Claim C4: when the TeX parser fails, the pipeline logs the failing
input and the parser's message, performs no math-index add, and still
records the offset entry and increments the position counter exactly as
on success. -/
theorem C4_tex_parse_failure (E : Exts) (tex : String) (off n : Nat)
    (s : IndexerState) (msg : String)
    (hp : E.tex_parse tex = .fail msg)
    (hOK : E.keyval_put_ok ⟨s.prev_docID + 1, s.cur_position⟩ ⟨off, n⟩ = true) :
    index_tex E tex off n s =
      { s with errLog := s.errLog ++
                 ["parsing TeX (" ++ tex ++ ") error: " ++ msg],
               offsetLog := s.offsetLog ++
                 [(⟨s.prev_docID + 1, s.cur_position⟩, ⟨off, n⟩)],
               cur_position := s.cur_position + 1 } := by
  rw [index_tex_fail_eq E tex off n s msg hp, if_pos hOK]

/-- Witness for C4: under `E0` the unparseable expression "y" is logged,
skipped by the math index, and still consumes a position. -/
theorem C4_tex_parse_failure_w :
    E0.tex_parse ("y") = .fail ("malformed") ∧
    E0.keyval_put_ok ⟨s0.prev_docID + 1, s0.cur_position⟩ ⟨2, 1⟩ = true ∧
    index_tex E0 ("y") 2 1 s0 =
      { s0 with errLog := s0.errLog ++
                  ["parsing TeX (" ++ "y" ++ ") error: " ++ "malformed"],
                offsetLog := s0.offsetLog ++
                  [(⟨s0.prev_docID + 1, s0.cur_position⟩, ⟨2, 1⟩)],
                cur_position := s0.cur_position + 1 } :=
  ⟨by decide, rfl, C4_tex_parse_failure E0 ("y") 2 1 s0 ("malformed") (by decide) rfl⟩

/-- Claim C5: an envelope that exceeds the maximum size, or whose url or
text field cannot be extracted, is aborted with zero side effects on the
four stores and on both counters (only a diagnostic is printed). -/
theorem C5_envelope_rejection (E : Exts) (env : Envelope) (s : IndexerState)
    (h : E.max_corpus_file_sz < env.size ∨ env.url = none ∨ env.text = none) :
    ∃ s2, indexer_index_json E env s = some s2 ∧
      s2.urlLog = s.urlLog ∧ s2.txtLog = s.txtLog ∧ s2.termLog = s.termLog ∧
      s2.mathLog = s.mathLog ∧ s2.offsetLog = s.offsetLog ∧
      s2.prev_docID = s.prev_docID ∧ s2.cur_position = s.cur_position := by
  obtain ⟨sz, url, txtf⟩ := env
  unfold indexer_index_json
  dsimp only at h ⊢
  rcases h with h | h | h
  · rw [if_pos (Nat.le_of_lt h)]
    exact ⟨_, rfl, rfl, rfl, rfl, rfl, rfl, rfl, rfl⟩
  · subst h
    split
    · exact ⟨_, rfl, rfl, rfl, rfl, rfl, rfl, rfl, rfl⟩
    · exact ⟨_, rfl, rfl, rfl, rfl, rfl, rfl, rfl, rfl⟩
  · subst h
    split
    · exact ⟨_, rfl, rfl, rfl, rfl, rfl, rfl, rfl, rfl⟩
    · cases url with
      | none => exact ⟨_, rfl, rfl, rfl, rfl, rfl, rfl, rfl, rfl⟩
      | some u => exact ⟨_, rfl, rfl, rfl, rfl, rfl, rfl, rfl, rfl⟩

/-- Witness for C5: an oversized envelope (200 bytes against `E0`'s
maximum of 100) is skipped with every store and counter unchanged. -/
theorem C5_envelope_rejection_w :
    ∃ s2, indexer_index_json E0 ⟨200, some ("u"), some ("t")⟩ s0 = some s2 ∧
      s2.urlLog = s0.urlLog ∧ s2.txtLog = s0.txtLog ∧ s2.termLog = s0.termLog ∧
      s2.mathLog = s0.mathLog ∧ s2.offsetLog = s0.offsetLog ∧
      s2.prev_docID = s0.prev_docID ∧ s2.cur_position = s0.cur_position :=
  C5_envelope_rejection E0 ⟨200, some ("u"), some ("t")⟩ s0 (Or.inl (by decide))

/-- Claim C8: after every invocation of the TeX parser that returns, the
subpaths collection owned by the parse result is released: `index_tex`
never changes the number of live subpaths collections, whatever the
parse outcome and whatever the math-index add did. -/
theorem C8_subpaths_released (E : Exts) (tex : String) (off n : Nat)
    (s : IndexerState) :
    (index_tex E tex off n s).liveSubpaths = s.liveSubpaths := by
  cases hp : E.tex_parse tex with
  | succ sp =>
      rw [index_tex_succ_eq E tex off n s sp hp]
      split <;> rfl
  | fail msg =>
      rw [index_tex_fail_eq E tex off n s msg hp]
      split <;> rfl

/-- Claim C9: an offset-store put failure is recoverable: `save_offset`
reports it (returns the error flag and logs a diagnostic), and
`index_term` still indexes the token and still increments the position
counter, leaving the offset store unchanged. -/
theorem C9_offset_put_failure (E : Exts) (term : String) (off n : Nat)
    (s : IndexerState)
    (hFail : E.keyval_put_ok ⟨s.prev_docID + 1, s.cur_position⟩ ⟨off, n⟩ = false) :
    (save_offset E off n s).1 = true ∧
    (save_offset E off n s).2.errLog = s.errLog ++ ["put error"] ∧
    index_term E term off n s =
      { s with termLog := s.termLog ++ [TermEvent.docAdd term],
               errLog := s.errLog ++ ["put error"],
               cur_position := s.cur_position + 1 } := by
  refine ⟨?_, ?_, ?_⟩
  · simp [save_offset, hFail]
  · simp [save_offset, hFail]
  · rw [index_term_eq, if_neg (by simp [hFail])]

/-- Witness for C9: with the always-failing offset store `EputFail` the
token "a" is still term-indexed and position 0 is still consumed. -/
theorem C9_offset_put_failure_w :
    EputFail.keyval_put_ok ⟨s0.prev_docID + 1, s0.cur_position⟩ ⟨3, 1⟩ = false ∧
    ((save_offset EputFail 3 1 s0).1 = true ∧
     (save_offset EputFail 3 1 s0).2.errLog = s0.errLog ++ ["put error"] ∧
     index_term EputFail ("a") 3 1 s0 =
       { s0 with termLog := s0.termLog ++ [TermEvent.docAdd ("a")],
                 errLog := s0.errLog ++ ["put error"],
                 cur_position := s0.cur_position + 1 }) :=
  ⟨rfl, C9_offset_put_failure EputFail ("a") 3 1 s0 rfl⟩

/-- Claim C10: a plain-text slice whose segmentation yields no text
segment has no effect at all on the pipeline state: no term-index
writes, no offset entries, counters unchanged — a slice may consume zero
positions. -/
theorem C10_empty_segmentation (E : Exts) (sl : LexSlice) (s : IndexerState)
    (ht : sl.type = .text)
    (hseg : E.text_segment (E.eng_to_lower_case sl.mb_str) = []) :
    indexer_handle_slice E sl s = s := by
  rw [handle_slice_text_eq E sl s ht, hseg, List.foldl_nil]

/-- Witness for C10: under `E0` the empty plain-text slice segments to
nothing and leaves the state untouched. -/
theorem C10_empty_segmentation_w :
    E0.text_segment (E0.eng_to_lower_case (⟨LexSliceType.text, "", 0⟩ :
        LexSlice).mb_str) = [] ∧
    indexer_handle_slice E0 ⟨LexSliceType.text, "", 0⟩ s0 = s0 :=
  ⟨by decide,
   C10_empty_segmentation E0 ⟨LexSliceType.text, "", 0⟩ s0 rfl (by decide)⟩

/-- Claim C2: in both token paths the offset entry for (docID-to-be,
current position) is recorded strictly before the position counter is
incremented — the appended entry carries the pre-increment position —
and exactly one entry is written per consumed position, so over any
slice sequence the offset-store growth equals the position growth. -/
theorem C2_offset_per_position (E : Exts)
    (hOK : ∀ f t, E.keyval_put_ok f t = true)
    (term tex : String) (off n : Nat) (s : IndexerState)
    (slices : List LexSlice) :
    (index_term E term off n s).offsetLog
        = s.offsetLog ++ [(⟨s.prev_docID + 1, s.cur_position⟩, ⟨off, n⟩)] ∧
    (index_term E term off n s).cur_position = s.cur_position + 1 ∧
    (index_tex E tex off n s).offsetLog
        = s.offsetLog ++ [(⟨s.prev_docID + 1, s.cur_position⟩, ⟨off, n⟩)] ∧
    (index_tex E tex off n s).cur_position = s.cur_position + 1 ∧
    (slices.foldl (fun st sl => indexer_handle_slice E sl st) s).offsetLog.length
        + s.cur_position
      = s.offsetLog.length
        + (slices.foldl (fun st sl => indexer_handle_slice E sl st) s).cur_position := by
  refine ⟨?_, ?_, ?_, ?_, foldl_handle_balance E hOK slices s⟩
  · rw [index_term_eq, if_pos (hOK _ _)]
  · rw [index_term_eq, if_pos (hOK _ _)]
  · cases hp : E.tex_parse tex with
    | succ sp => rw [index_tex_succ_eq E tex off n s sp hp, if_pos (hOK _ _)]
    | fail msg => rw [index_tex_fail_eq E tex off n s msg hp, if_pos (hOK _ _)]
  · cases hp : E.tex_parse tex with
    | succ sp => rw [index_tex_succ_eq E tex off n s sp hp, if_pos (hOK _ _)]
    | fail msg => rw [index_tex_fail_eq E tex off n s msg hp, if_pos (hOK _ _)]

/-- Witness for C2 under `E0` at position 0 of the upcoming document 1,
with a one-slice document. -/
theorem C2_offset_per_position_w :
    (∀ f t, E0.keyval_put_ok f t = true) ∧
    ((index_term E0 ("a") 3 1 s0).offsetLog
        = s0.offsetLog ++ [(⟨s0.prev_docID + 1, s0.cur_position⟩, ⟨3, 1⟩)] ∧
     (index_term E0 ("a") 3 1 s0).cur_position = s0.cur_position + 1 ∧
     (index_tex E0 ("x^2") 3 1 s0).offsetLog
        = s0.offsetLog ++ [(⟨s0.prev_docID + 1, s0.cur_position⟩, ⟨3, 1⟩)] ∧
     (index_tex E0 ("x^2") 3 1 s0).cur_position = s0.cur_position + 1 ∧
     (([⟨LexSliceType.engText, "A", 5⟩] : List LexSlice).foldl
         (fun st sl => indexer_handle_slice E0 sl st) s0).offsetLog.length
         + s0.cur_position
       = s0.offsetLog.length
         + (([⟨LexSliceType.engText, "A", 5⟩] : List LexSlice).foldl
             (fun st sl => indexer_handle_slice E0 sl st) s0).cur_position) :=
  ⟨fun _ _ => rfl,
   C2_offset_per_position E0 (fun _ _ => rfl) ("a") ("x^2") 3 1 s0
     [⟨LexSliceType.engText, "A", 5⟩]⟩

theorem handle_slice_math_lit (E : Exts) (m : String) (o : Nat)
    (s : IndexerState) :
    indexer_handle_slice E ⟨.math, m, o⟩ s =
      index_tex E (E.strip_math_tag m) o m.utf8ByteSize
        { s with termLog := s.termLog ++ [TermEvent.docAdd ("math_exp")] } := rfl

theorem handle_slice_eng_lit (E : Exts) (t : String) (o : Nat)
    (s : IndexerState) :
    indexer_handle_slice E ⟨.engText, t, o⟩ s =
      index_term E (E.eng_to_lower_case t) o t.utf8ByteSize s := rfl

/-- An English-text slice, with a working offset store: one term
appended, one offset entry keyed `(prev_docID + 1, cur_position)`, one
position consumed. -/
theorem handle_slice_eng_spec (E : Exts) (t : String) (o : Nat)
    (s : IndexerState) (hOK : ∀ f v, E.keyval_put_ok f v = true) :
    indexer_handle_slice E ⟨.engText, t, o⟩ s =
      { s with termLog := s.termLog ++ [TermEvent.docAdd (E.eng_to_lower_case t)],
               offsetLog := s.offsetLog ++
                 [(⟨s.prev_docID + 1, s.cur_position⟩, ⟨o, t.utf8ByteSize⟩)],
               cur_position := s.cur_position + 1 } := by
  rw [handle_slice_eng_lit, index_term_eq, if_pos (hOK _ _)]

/-- A math slice whose stripped body parses, with a working offset
store: sentinel term, math entry and offset entry all at
`(prev_docID + 1, cur_position)`, one position consumed. -/
theorem handle_slice_math_succ_spec (E : Exts) (m : String) (o : Nat)
    (s : IndexerState) (sp : Subpaths)
    (hp : E.tex_parse (E.strip_math_tag m) = .succ sp)
    (hOK : ∀ f v, E.keyval_put_ok f v = true) :
    indexer_handle_slice E ⟨.math, m, o⟩ s =
      { s with termLog := s.termLog ++ [TermEvent.docAdd ("math_exp")],
               mathLog := s.mathLog ++
                 [(⟨s.prev_docID + 1, s.cur_position, sp⟩ : MathEntry)],
               offsetLog := s.offsetLog ++
                 [(⟨s.prev_docID + 1, s.cur_position⟩, ⟨o, m.utf8ByteSize⟩)],
               cur_position := s.cur_position + 1 } := by
  rw [handle_slice_math_lit,
    index_tex_succ_eq E (E.strip_math_tag m) o m.utf8ByteSize _ sp hp,
    if_pos (hOK _ _)]

/-- A math slice whose stripped body fails to parse, with a working
offset store: sentinel term, diagnostic line, offset entry, one position
consumed, no math entry. -/
theorem handle_slice_math_fail_spec (E : Exts) (m : String) (o : Nat)
    (s : IndexerState) (msg : String)
    (hp : E.tex_parse (E.strip_math_tag m) = .fail msg)
    (hOK : ∀ f v, E.keyval_put_ok f v = true) :
    indexer_handle_slice E ⟨.math, m, o⟩ s =
      { s with termLog := s.termLog ++ [TermEvent.docAdd ("math_exp")],
               errLog := s.errLog ++
                 ["parsing TeX (" ++ E.strip_math_tag m ++ ") error: " ++ msg],
               offsetLog := s.offsetLog ++
                 [(⟨s.prev_docID + 1, s.cur_position⟩, ⟨o, m.utf8ByteSize⟩)],
               cur_position := s.cur_position + 1 } := by
  rw [handle_slice_math_lit,
    index_tex_fail_eq E (E.strip_math_tag m) o m.utf8ByteSize _ msg hp,
    if_pos (hOK _ _)]

/-- Claim C3: a math slice first registers the fixed sentinel term in
the term index, then hands the stripped body to TeX extraction; the
whole math slice consumes exactly one position (its successful parse is
math-indexed at that position); and a math slice sandwiched between two
plain-text tokens consumes exactly 3 positions, with the sentinel as the
middle term and the math slice's offset entry at the middle position. -/
theorem C3_math_sentinel_sandwich (E : Exts)
    (hOK : ∀ f v, E.keyval_put_ok f v = true)
    (m t1 t2 : String) (o1 o2 o3 : Nat) (s : IndexerState) :
    ((indexer_handle_slice E ⟨.math, m, o2⟩ s).termLog
        = s.termLog ++ [TermEvent.docAdd ("math_exp")] ∧
     (indexer_handle_slice E ⟨.math, m, o2⟩ s).cur_position
        = s.cur_position + 1 ∧
     (∀ sp, E.tex_parse (E.strip_math_tag m) = .succ sp →
        (indexer_handle_slice E ⟨.math, m, o2⟩ s).mathLog
          = s.mathLog ++ [(⟨s.prev_docID + 1, s.cur_position, sp⟩ : MathEntry)])) ∧
    ((([⟨.engText, t1, o1⟩, ⟨.math, m, o2⟩, ⟨.engText, t2, o3⟩] :
          List LexSlice).foldl
        (fun st sl => indexer_handle_slice E sl st) s).cur_position
        = s.cur_position + 3 ∧
     (([⟨.engText, t1, o1⟩, ⟨.math, m, o2⟩, ⟨.engText, t2, o3⟩] :
          List LexSlice).foldl
        (fun st sl => indexer_handle_slice E sl st) s).termLog
        = s.termLog ++ [TermEvent.docAdd (E.eng_to_lower_case t1),
            TermEvent.docAdd ("math_exp"),
            TermEvent.docAdd (E.eng_to_lower_case t2)] ∧
     (([⟨.engText, t1, o1⟩, ⟨.math, m, o2⟩, ⟨.engText, t2, o3⟩] :
          List LexSlice).foldl
        (fun st sl => indexer_handle_slice E sl st) s).offsetLog
        = s.offsetLog ++
            [(⟨s.prev_docID + 1, s.cur_position⟩, ⟨o1, t1.utf8ByteSize⟩),
             (⟨s.prev_docID + 1, s.cur_position + 1⟩, ⟨o2, m.utf8ByteSize⟩),
             (⟨s.prev_docID + 1, s.cur_position + 2⟩, ⟨o3, t2.utf8ByteSize⟩)]) := by
  constructor
  · refine ⟨?_, ?_, ?_⟩
    · cases hp : E.tex_parse (E.strip_math_tag m) with
      | succ sp => rw [handle_slice_math_succ_spec E m o2 s sp hp hOK]
      | fail msg => rw [handle_slice_math_fail_spec E m o2 s msg hp hOK]
    · cases hp : E.tex_parse (E.strip_math_tag m) with
      | succ sp => rw [handle_slice_math_succ_spec E m o2 s sp hp hOK]
      | fail msg => rw [handle_slice_math_fail_spec E m o2 s msg hp hOK]
    · intro sp hp
      rw [handle_slice_math_succ_spec E m o2 s sp hp hOK]
  · rw [List.foldl_cons, List.foldl_cons, List.foldl_cons, List.foldl_nil,
      handle_slice_eng_spec E t1 o1 s hOK]
    cases hp : E.tex_parse (E.strip_math_tag m) with
    | succ sp =>
        rw [handle_slice_math_succ_spec E m o2 _ sp hp hOK,
          handle_slice_eng_spec E t2 o3 _ hOK]
        refine ⟨rfl, ?_, ?_⟩ <;> simp
    | fail msg =>
        rw [handle_slice_math_fail_spec E m o2 _ msg hp hOK,
          handle_slice_eng_spec E t2 o3 _ hOK]
        refine ⟨rfl, ?_, ?_⟩ <;> simp

/-- Witness for C3: under `E0` the math slice (offset 4) between the
plain-text tokens "A" (offset 0) and "B" (offset 20): its stripped body
parses to subpaths [1, 2], indexed at position 0 of document 1 when the
slice stands alone, and the sandwich consumes exactly 3 positions. -/
theorem C3_math_sentinel_sandwich_w :
    (∀ f v, E0.keyval_put_ok f v = true) ∧
    E0.tex_parse (E0.strip_math_tag ("<math>x^2</math>")) = .succ [1, 2] ∧
    (indexer_handle_slice E0 ⟨.math, "<math>x^2</math>", 4⟩ s0).mathLog
      = s0.mathLog ++ [(⟨s0.prev_docID + 1, s0.cur_position, [1, 2]⟩ : MathEntry)] ∧
    (([⟨.engText, "A", 0⟩, ⟨.math, "<math>x^2</math>", 4⟩, ⟨.engText, "B", 20⟩] :
        List LexSlice).foldl
        (fun st sl => indexer_handle_slice E0 sl st) s0).cur_position
      = s0.cur_position + 3 :=
  ⟨fun _ _ => rfl, by decide,
   (C3_math_sentinel_sandwich E0 (fun _ _ => rfl) ("<math>x^2</math>") ("A") ("B")
       0 4 20 s0).1.2.2 [1, 2] (by decide),
   (C3_math_sentinel_sandwich E0 (fun _ _ => rfl) ("<math>x^2</math>") ("A") ("B")
       0 4 20 s0).2.1⟩

/-- Claim C7: over any run of successfully processed documents the
docIDs returned by finalization form a strictly increasing, gap-free
sequence starting one above the initial last-completed docID. -/
theorem C7_docID_monotonic (E : Exts) (txts : List String) :
    ∀ (s s2 : IndexerState) (ids : List Nat),
      index_docs E txts s = some (s2, ids) →
      ids = List.range' (s.prev_docID + 1) txts.length ∧
      s2.prev_docID = s.prev_docID + txts.length := by
  induction txts with
  | nil =>
      intro s s2 ids h
      simp only [index_docs, Option.some_inj, Prod.mk.injEq] at h
      obtain ⟨h1, h2⟩ := h
      subst h1
      subst h2
      simp [List.range']
  | cons txt rest ih =>
      intro s s2 ids h
      simp only [index_docs] at h
      cases hx : index_text_field E txt s with
      | none =>
          simp only [hx] at h
          exact Option.noConfusion h
      | some s1 =>
          simp only [hx] at h
          cases hr : index_docs E rest s1 with
          | none =>
              simp only [hr] at h
              exact Option.noConfusion h
          | some pr =>
              obtain ⟨s3, ids3⟩ := pr
              simp only [hr, Option.some_inj, Prod.mk.injEq] at h
              obtain ⟨hs, hi⟩ := h
              subst hs
              subst hi
              have hprev := (index_text_field_some_spec E txt s s1 hx).1
              obtain ⟨hids, hfin⟩ := ih s1 s3 ids3 hr
              constructor
              · rw [hids, hprev, List.length_cons, List.range'_succ]
              · rw [hfin, hprev, List.length_cons]
                omega

/-- Witness for C7: running `E0` over the two documents "a" and "b" from
the initial state yields the docID sequence [1, 2]. -/
theorem C7_docID_monotonic_w :
    ([1, 2] : List Nat)
        = List.range' (s0.prev_docID + 1) (["a", "b"] : List String).length ∧
    sC7.prev_docID = s0.prev_docID + (["a", "b"] : List String).length :=
  C7_docID_monotonic E0 ["a", "b"] s0 sC7 [1, 2] (by decide)

/-- Claim C6: every per-document store write is keyed by the predicted
upcoming docID `prev_docID + 1`: the URL blob uncompressed, the text
blob compressed, offset entries and math entries under the same key; and
when `indexer_index_json` completes a document (advancing `prev_docID`),
every entry it appended to the four stores carries the finalized docID. -/
theorem C6_predicted_key (E : Exts) (u t tex : String) (off n : Nat)
    (env : Envelope) (s s2 : IndexerState) :
    (index_blob E .url u false s).urlLog
        = s.urlLog ++ [(s.prev_docID + 1, u)] ∧
    (index_blob E .txt t true s).txtLog
        = s.txtLog ++ [(s.prev_docID + 1, E.gz_compress t)] ∧
    (∀ p ∈ (save_offset E off n s).2.offsetLog.drop s.offsetLog.length,
        p.1.docID = s.prev_docID + 1) ∧
    (∀ e ∈ (index_tex E tex off n s).mathLog.drop s.mathLog.length,
        e.docID = s.prev_docID + 1) ∧
    (indexer_index_json E env s = some s2 → s.prev_docID < s2.prev_docID →
      s2.prev_docID = s.prev_docID + 1 ∧
      (∀ p ∈ s2.urlLog.drop s.urlLog.length, p.1 = s2.prev_docID) ∧
      (∀ p ∈ s2.txtLog.drop s.txtLog.length, p.1 = s2.prev_docID) ∧
      (∀ p ∈ s2.offsetLog.drop s.offsetLog.length, p.1.docID = s2.prev_docID) ∧
      (∀ e ∈ s2.mathLog.drop s.mathLog.length, e.docID = s2.prev_docID)) := by
  refine ⟨?_, ?_, ?_, ?_, ?_⟩
  · rw [index_blob_url_eq]
    simp
  · rw [index_blob_txt_eq]
    simp
  · by_cases hc : E.keyval_put_ok ⟨s.prev_docID + 1, s.cur_position⟩ ⟨off, n⟩ = true
    · simp [save_offset, hc, List.drop_left]
    · simp [save_offset, hc, List.drop_length]
  · cases hp : E.tex_parse tex with
    | succ sp =>
        rw [index_tex_succ_eq E tex off n s sp hp]
        split
        · simp [List.drop_left]
        · simp [List.drop_left]
    | fail msg =>
        rw [index_tex_fail_eq E tex off n s msg hp]
        split
        · simp [List.drop_length]
        · simp [List.drop_length]
  · intro h hlt
    obtain ⟨sz, url, txtf⟩ := env
    unfold indexer_index_json at h
    dsimp only at h
    by_cases hsz : E.max_corpus_file_sz ≤ sz
    · rw [if_pos hsz, Option.some_inj] at h
      subst h
      exact absurd hlt (Nat.lt_irrefl _)
    · rw [if_neg hsz] at h
      cases url with
      | none =>
          rw [Option.some_inj] at h
          subst h
          exact absurd hlt (Nat.lt_irrefl _)
      | some u1 =>
          cases txtf with
          | none =>
              rw [Option.some_inj] at h
              subst h
              exact absurd hlt (Nat.lt_irrefl _)
          | some t1 =>
              cases hx : index_text_field E t1 (index_blob E .url u1 false s) with
              | none =>
                  simp only [hx] at h
                  exact Option.noConfusion h
              | some s3 =>
                  simp only [hx, Option.some_inj] at h
                  subst h
                  obtain ⟨hmp, hmc, hmt, hmm, hmo, hmu, hmtx, hml⟩ :=
                    index_maintain_frame E s3
                  obtain ⟨hp3, hc3, hu3, ht3, ⟨O, hO, hOk⟩, ⟨M, hM, hMk⟩⟩ :=
                    index_text_field_some_spec E t1 (index_blob E .url u1 false s) s3 hx
                  rw [index_blob_url_eq] at hp3 hu3 ht3 hO hOk hM hMk
                  have hfin : (index_maintain E s3).prev_docID = s.prev_docID + 1 := by
                    rw [hmp, hp3]
                  refine ⟨hfin, ?_, ?_, ?_, ?_⟩
                  · rw [hmu, hu3, hfin]
                    dsimp only
                    rw [List.drop_left]
                    intro p hyp
                    rw [List.mem_singleton] at hyp
                    rw [hyp]
                  · rw [hmtx, ht3, hfin]
                    dsimp only
                    rw [List.drop_left]
                    intro p hyp
                    rw [List.mem_singleton] at hyp
                    rw [hyp]
                  · rw [hmo, hO, hfin]
                    dsimp only
                    rw [List.drop_left]
                    intro p hyp
                    exact hOk p hyp
                  · rw [hmm, hM, hfin]
                    dsimp only
                    rw [List.drop_left]
                    intro e he
                    exact hMk e he

/-- Witness for C6: processing the accepted envelope (url "u", empty
text) from the initial state advances the docID to 1 and leaves every
appended store entry keyed by that finalized docID. -/
theorem C6_predicted_key_w :
    indexer_index_json E0 ⟨10, some ("u"), some ("")⟩ s0 = some sC6 ∧
    s0.prev_docID < sC6.prev_docID ∧
    (sC6.prev_docID = s0.prev_docID + 1 ∧
     (∀ p ∈ sC6.urlLog.drop s0.urlLog.length, p.1 = sC6.prev_docID) ∧
     (∀ p ∈ sC6.txtLog.drop s0.txtLog.length, p.1 = sC6.prev_docID) ∧
     (∀ p ∈ sC6.offsetLog.drop s0.offsetLog.length, p.1.docID = sC6.prev_docID) ∧
     (∀ e ∈ sC6.mathLog.drop s0.mathLog.length, e.docID = sC6.prev_docID)) :=
  ⟨by decide, by decide,
   (C6_predicted_key E0 ("u") ("t") ("x") 0 0 ⟨10, some ("u"), some ("")⟩
       s0 sC6).2.2.2.2 (by decide) (by decide)⟩

end Indexer
